import Mathlib

/-
  Verification development for the Math-Agent answer-routing backend.

  Shallow embedding of the Python sources under backend/:
    guardrails_helper.py, arithmetic_helper.py, linear_equation_solver.py,
    derivative_helper.py, db_utils.py, web_search_helper.py, feedback_db.py,
    and the /api/ask router plus /api/feedback/train handler of app.py.

  Modelling conventions:
  - Python floats are modelled as rationals (exact arithmetic); float
    formatting (repr) is modelled exactly for integral values, and by an
    explicit terminating-decimal renderer otherwise (no claim depends on the
    non-integral rendering).
  - External services (sentence-transformers encode, QdrantClient, Tavily,
    Groq, html.unescape, sqlite insert success) are parameters supplied by an
    environment record; code of this repository is embedded definitionally.
  - Character classes of Python regexes are modelled over ASCII.
-/

namespace MathAgent

/-! ## Basic Python string helpers -/

/-- Python whitespace for str.strip and regex backslash-s (ASCII range). -/
def isPySpace (c : Char) : Bool :=
  c = ' ' || c = '\t' || c = '\n' || c = '\r' || c = '\x0b' || c = '\x0c'

/-- Python str.strip on a character list. -/
def pyStripList (cs : List Char) : List Char :=
  ((cs.dropWhile isPySpace).reverse.dropWhile isPySpace).reverse

/-- Python str.strip on a string. -/
def pyStrip (s : String) : String :=
  String.mk (pyStripList s.toList)

/-- Python str.lower on one character (ASCII model). -/
def asciiLower (c : Char) : Char :=
  if 'A' ≤ c ∧ c ≤ 'Z' then Char.ofNat (c.toNat + 32) else c

/-- Python str.lower (ASCII). -/
def pyLower (s : String) : String :=
  String.mk (s.toList.map asciiLower)

/-- Python substring membership on character lists: try a prefix match at
every suffix. -/
def listIn (pat : List Char) : List Char → Bool
  | [] => pat.isEmpty
  | c :: rest => pat.isPrefixOf (c :: rest) || listIn pat rest

/-- Python substring membership: pat in s. -/
def strIn (pat s : String) : Bool :=
  listIn pat.toList s.toList

/-- Python str.replace for single characters. -/
def pyReplaceChar (a b : Char) (cs : List Char) : List Char :=
  cs.map (fun c => if c = a then b else c)

/-- Skip regex backslash-s-star: drop leading whitespace. -/
def skipWs (cs : List Char) : List Char :=
  cs.dropWhile isPySpace

/-- Python regex word character backslash-w (ASCII model). -/
def isWordChar (c : Char) : Bool :=
  c.isAlphanum || c = '_'

/-- Search a position predicate at every suffix (re.search semantics for
patterns that do not look left of the current position). -/
def reSearch (p : List Char → Bool) : List Char → Bool
  | [] => false
  | c :: rest => p (c :: rest) || reSearch p rest

/-! ## guardrails_helper.py -/

/-- Deny-list from guardrails_helper.contains_prompt_injection. -/
def suspicious_phrases : List String :=
  ["ignore previous", "system prompt", "change rules", "bypass", "act as", "jailbreak",
   "reveal", "show hidden", "write code", "malware", "sql injection", "prompt injection",
   "delete all", "sudo", "hack", "disable filter"]

/-- guardrails_helper.contains_prompt_injection: case-insensitive substring
match of any deny-listed phrase. -/
def contains_prompt_injection (text : String) : Bool :=
  let t := pyLower text
  suspicious_phrases.any (fun phrase => strIn phrase t)

/-- Allow-list from guardrails_helper.is_math_question. -/
def math_keywords : List String :=
  ["solve", "equation", "value of", "simplify", "add", "subtract", "multiply", "divide",
   "integrate", "differentiate", "derivative", "limit", "function", "geometry", "theorem",
   "triangle", "circle", "area", "perimeter", "algebra", "calculus", "trigonometry",
   "sin", "cos", "tan", "log", "root", "square", "cube", "mean", "median", "mode",
   "probability", "statistics", "vector", "matrix", "formula", "radius", "diameter",
   "volume", "height", "base", "hypotenuse", "pythagoras", "slope"]

/-- Operator class of the math structural pattern. -/
def mathOpClass (c : Char) : Bool :=
  c = '+' || c = '-' || c = '*' || c = '/' || c = '=' || c = '^'

/-- Binary-operator class (digits op digits alternative of math_pattern). -/
def binOpClass (c : Char) : Bool :=
  c = '+' || c = '-' || c = '*' || c = '/'

/-- One position of guardrails_helper.math_pattern:
alternatives op-char, x digit, x caret, digits ws x, digits ws op ws digits. -/
def mathStructAt (cs : List Char) : Bool :=
  match cs with
  | [] => false
  | c :: rest =>
    if mathOpClass c then true
    else if c = 'x' then
      match rest with
      | [] => false
      | d :: _ => d.isDigit || d = '^'
    else if c.isDigit then
      match skipWs (rest.dropWhile Char.isDigit) with
      | [] => false
      | c2 :: r3 =>
        c2 = 'x' ||
        (binOpClass c2 && (match skipWs r3 with
                           | d :: _ => d.isDigit
                           | [] => false))
    else false

/-- guardrails_helper.is_math_question: keyword allow-list or structural
math pattern, over the lower-cased text. -/
def is_math_question (text : String) : Bool :=
  let t := pyLower text
  math_keywords.any (fun w => strIn w t) || reSearch mathStructAt t.toList

/-! ## Numeric literal parsing shared by the solvers

Models the regex pieces using greedy scanning; greediness agrees with the
backtracking regex here because a digit run followed by a non-digit leaves no
alternative match (argued per use site). -/

/-- Numeric value of a digit-character list (most significant first). -/
def digitsVal (ds : List Char) : ℕ :=
  ds.foldl (fun a c => 10 * a + (c.toNat - 48)) 0

/-- Value of a fractional digit run: digits interpreted right of the point. -/
def fracVal (ds : List Char) : ℚ :=
  (digitsVal ds : ℚ) / (10 ^ ds.length : ℕ)

/-- Parse digits-plus with optional point-digits-plus fraction
(regex piece: digits with optional fractional group). -/
def parseUnsigned (cs : List Char) : Option (ℚ × List Char) :=
  let ds := cs.takeWhile Char.isDigit
  let r1 := cs.dropWhile Char.isDigit
  if ds.isEmpty then none
  else
    match r1 with
    | c :: r2 =>
      if c = '.' then
        let fs := r2.takeWhile Char.isDigit
        if fs.isEmpty then some ((digitsVal ds : ℚ), c :: r2)
        else some ((digitsVal ds : ℚ) + fracVal fs, r2.dropWhile Char.isDigit)
      else some ((digitsVal ds : ℚ), c :: r2)
    | [] => some ((digitsVal ds : ℚ), [])

/-- Parse an optionally signed decimal literal without the bare-dot form
(regex: optional sign, digits, optional fraction). -/
def parseSignedDigits (cs : List Char) : Option (ℚ × List Char) :=
  match cs with
  | [] => none
  | c :: r =>
    if c = '+' then parseUnsigned r
    else if c = '-' then (parseUnsigned r).map (fun p => (-p.1, p.2))
    else parseUnsigned (c :: r)

/-- Parse one operand of the arithmetic regex: signed literal or a bare
point-digits literal (unsigned only, as in the source regex). -/
def parseNumLit (cs : List Char) : Option (ℚ × List Char) :=
  match cs with
  | [] => none
  | c :: r =>
    if c = '.' then
      let fs := r.takeWhile Char.isDigit
      if fs.isEmpty then none
      else some (fracVal fs, r.dropWhile Char.isDigit)
    else parseSignedDigits (c :: r)

/-! ## arithmetic_helper.py -/

/-- Operator class of the arithmetic regex (case-insensitive x). -/
def arithOpClass (c : Char) : Bool :=
  c = '+' || c = '-' || c = '×' || c = 'x' || c = 'X' || c = '*' || c = '/' || c = '^'

/-- Full anchored match of arithmetic_helper._ARITH_RE:
    optional space, operand, optional space, operator, optional space,
    operand, optional space, end. -/
def matchArith (cs : List Char) : Option (ℚ × Char × ℚ) :=
  match parseNumLit (skipWs cs) with
  | none => none
  | some (a, r1) =>
    match skipWs r1 with
    | [] => none
    | op :: r2 =>
      if arithOpClass op then
        match parseNumLit (skipWs r2) with
        | none => none
        | some (b, r3) => if (skipWs r3).isEmpty then some (a, op, b) else none
      else none

/-- Model of Python decimal rendering of a non-negative rational smaller
than one (digit stream; exact when the expansion terminates within fuel). -/
def decDigits : ℕ → ℚ → List Char
  | 0, _ => []
  | fuel + 1, q =>
    if q = 0 then []
    else
      let d := (q * 10).floor
      Char.ofNat (48 + d.toNat) :: decDigits fuel (q * 10 - (d : ℚ))

/-- Model of Python float repr for the non-integral case:
sign, integer part, point, fractional digits. Exact for short terminating
decimals; no claim depends on this rendering. -/
def pyFloatRepr (q : ℚ) : String :=
  let sign := if q < 0 then "-" else ""
  let aq := |q|
  let ip := aq.floor
  let fp := aq - (ip : ℚ)
  sign ++ toString ip ++ "." ++ String.mk (decDigits 17 fp)

/-- Result formatting of try_compute_arithmetic: integral floats are
rendered without a decimal point, others by float repr. -/
def formatArithRes (res : ℚ) : String :=
  if res.den = 1 then toString res.num else pyFloatRepr res

/-- arithmetic_helper.try_compute_arithmetic: strip, rewrite the multiply
glyphs (unicode times, X, x) to star, match the anchored two-operand regex,
then evaluate. Division by zero yields a textual error; float pow is exact
only for integral exponents (non-integral exponents and zero to a negative
power are non-matches, as the caught float errors are in the source). -/
def try_compute_arithmetic (text : String) : Option String :=
  let t0 := pyStripList text.toList
  let t := pyReplaceChar 'x' '*' (pyReplaceChar 'X' '*' (pyReplaceChar '×' '*' t0))
  match matchArith t with
  | none => none
  | some (a, op, b) =>
    if op = '+' then some (formatArithRes (a + b))
    else if op = '-' then some (formatArithRes (a - b))
    else if op = '*' || op = '×' || op = 'x' then some (formatArithRes (a * b))
    else if op = '/' || op = '÷' then
      if b = 0 then some "Division by zero error"
      else some (formatArithRes (a / b))
    else if op = '^' then
      if b.den = 1 then
        if a = 0 && b.num < 0 then none
        else some (formatArithRes (a ^ b.num))
      else none
    else none

/-! ## linear_equation_solver.py -/

/-- Solver-internal non-linear reject at one position
(regex: caret, superscript two or three, or x-ws-digit; case-insensitive). -/
def solverNonLinAt (cs : List Char) : Bool :=
  match cs with
  | [] => false
  | c :: rest =>
    c = '^' || c = '²' || c = '³' ||
    ((c = 'x' || c = 'X') && (match skipWs rest with
                              | d :: _ => d.isDigit
                              | [] => false))

/-- Split at the first equality sign (Python split with maxsplit one;
only called when an equality sign is present). -/
def splitEqFirst : List Char → List Char × List Char
  | [] => ([], [])
  | '=' :: r => ([], r)
  | c :: r =>
    let p := splitEqFirst r
    (c :: p.1, p.2)

/-- Body of the re.sub inserting an explicit coefficient after a sign
(pattern: start-or-sign then x; non-overlapping left-to-right). -/
def subStandaloneGo : List Char → List Char
  | [] => []
  | [c] => [c]
  | c :: d :: rest =>
    if (c = '+' || c = '-') && d = 'x' then c :: '1' :: 'x' :: subStandaloneGo rest
    else c :: subStandaloneGo (d :: rest)

/-- The re.sub of try_solve_linear: a bare leading x, or a sign-x pair,
gets coefficient one inserted. -/
def subStandalone (cs : List Char) : List Char :=
  match cs with
  | 'x' :: rest => '1' :: 'x' :: subStandaloneGo rest
  | _ => subStandaloneGo cs

/-- Leftmost match of the coefficient regex (optional sign, digits, optional
fraction, then the letter x); returns the text before the match, the
coefficient value, and the text after. -/
def findCoefX : List Char → Option (List Char × ℚ × List Char)
  | [] => none
  | c :: rest =>
    match (match parseSignedDigits (c :: rest) with
           | some (v, 'x' :: r2) => some (v, r2)
           | _ => none) with
    | some (v, r2) => some ([], v, r2)
    | none => (findCoefX rest).map (fun p => (c :: p.1, p.2.1, p.2.2))

/-- re.findall of all signed numeric literals, non-overlapping, left to
right; structurally recursive on a fuel bound so that the kernel can
evaluate it (the fuel never runs out, by parseSignedDigits_length). -/
def findallNumsFuel : ℕ → List Char → List ℚ
  | 0, _ => []
  | _, [] => []
  | fuel + 1, c :: rest =>
    match parseSignedDigits (c :: rest) with
    | some (v, r) => v :: findallNumsFuel fuel r
    | none => findallNumsFuel fuel rest

/-- re.findall of all signed numeric literals. -/
def findallNums (cs : List Char) : List ℚ :=
  findallNumsFuel cs.length cs

/-- Model of Python float(str): optional surrounding whitespace, optional
sign, a mantissa with at least one digit (digit run, optional point and
optional further digits, or a bare point followed by digits), and an
optional exponent. The inf, nan and underscore forms are omitted; none of
the routed strings use them. -/
def pyFloatOfString (cs0 : List Char) : Option ℚ :=
  let cs := pyStripList cs0
  let signed : Bool × List Char :=
    match cs with
    | '+' :: r => (false, r)
    | '-' :: r => (true, r)
    | _ => (false, cs)
  let neg := signed.1
  let body := signed.2
  let ds := body.takeWhile Char.isDigit
  let r1 := body.dropWhile Char.isDigit
  let mant : Option (ℚ × List Char) :=
    match r1 with
    | '.' :: r2 =>
      let fs := r2.takeWhile Char.isDigit
      if ds.isEmpty && fs.isEmpty then none
      else some ((digitsVal ds : ℚ) + fracVal fs, r2.dropWhile Char.isDigit)
    | _ => if ds.isEmpty then none else some ((digitsVal ds : ℚ), r1)
  match mant with
  | none => none
  | some (m, r3) =>
    let withExp : Option ℚ :=
      match r3 with
      | [] => some m
      | e :: r4 =>
        if e = 'e' || e = 'E' then
          let esigned : Bool × List Char :=
            match r4 with
            | '+' :: r5 => (false, r5)
            | '-' :: r5 => (true, r5)
            | _ => (false, r4)
          let eds := esigned.2.takeWhile Char.isDigit
          let r6 := esigned.2.dropWhile Char.isDigit
          if eds.isEmpty || !r6.isEmpty then none
          else if esigned.1 then some (m / (10 ^ digitsVal eds : ℕ))
          else some (m * (10 ^ digitsVal eds : ℕ))
        else none
    match withExp with
    | none => none
    | some v => some (if neg then -v else v)

/-- linear_equation_solver.try_solve_linear: strip and remove spaces,
quick-reject without equality or variable, reject non-linear markers,
normalise implicit coefficients, extract the first coefficient-x term, sum
the remaining constants on the left, parse the right side as a float, and
solve. -/
def try_solve_linear (text : String) : Option String :=
  let t := (pyStripList text.toList).filter (fun c => c ≠ ' ')
  if !(t.contains '=') then none
  else if !((t.map asciiLower).contains 'x') then none
  else if reSearch solverNonLinAt t then none
  else
    let p := splitEqFirst t
    let left := pyReplaceChar 'X' 'x' p.1
    let right := p.2
    let left := subStandalone left
    match findCoefX left with
    | none => none
    | some (before, a, after) =>
      let consts := findallNums (before ++ after)
      let b : ℚ := consts.sum
      if (right.map asciiLower).contains 'x' then none
      else
        match pyFloatOfString right with
        | none => none
        | some c =>
          if a = 0 then none
          else
            let x := (c - b) / a
            if x.den = 1 then some ("x = " ++ toString x.num)
            else some ("x = " ++ pyFloatRepr x)

/-! ## derivative_helper.py -/

/-- derivative_helper.try_derivative_lookup: lower-case, remove spaces,
require a derivative marker, then a fixed table lookup. -/
def try_derivative_lookup (text : String) : Option String :=
  let t := (text.toList.map asciiLower).filter (fun c => c ≠ ' ')
  if listIn "d/dx".toList t || "derivative".toList.isPrefixOf t
      || "deriv".toList.isPrefixOf t then
    if listIn "x^2".toList t || listIn "x**2".toList t then
      some "Derivative of x^2 is 2x"
    else if listIn "x^3".toList t || listIn "x**3".toList t then
      some "Derivative of x^3 is 3x^2"
    else if listIn "sin(x)".toList t || listIn "sinx".toList t then
      some "Derivative of sin(x) is cos(x)"
    else if listIn "cos(x)".toList t || listIn "cosx".toList t then
      some "Derivative of cos(x) is -sin(x)"
    else if listIn "ln(x)".toList t || listIn "log(x)".toList t then
      some "Derivative of ln(x) is 1/x"
    else none
  else none

/-! ## The router's non-linear guard (app.py, before try_solve_linear) -/

/-- One position of the router guard regex with the previous character as
boundary context: boundary-x-ws-caret, boundary-digits-ws-caret,
superscript two or three, boundary-x-digit (case-insensitive). -/
def nonLinearAt (prev : Option Char) (cs : List Char) : Bool :=
  match cs with
  | [] => false
  | c :: rest =>
    let boundary : Bool :=
      match prev with
      | none => true
      | some p => !isWordChar p
    (c = '²' || c = '³') ||
    (boundary && (c = 'x' || c = 'X') &&
      ((match skipWs rest with
        | '^' :: _ => true
        | _ => false) ||
       (match rest with
        | d :: _ => d.isDigit
        | [] => false))) ||
    (boundary && c.isDigit &&
      (match skipWs (rest.dropWhile Char.isDigit) with
       | '^' :: _ => true
       | _ => false))

/-- Search with boundary context threaded through. -/
def nonLinearGo (prev : Option Char) : List Char → Bool
  | [] => false
  | c :: rest => nonLinearAt prev (c :: rest) || nonLinearGo (some c) rest

/-- The router's non-linear marker search (app.py line 193). -/
def nonLinearSearch (cs : List Char) : Bool :=
  nonLinearGo none cs

/-! ## Data model: knowledge-base payloads, hits and points -/

/-- Payload of a knowledge-base entry (the Qdrant point payload written by
ingest and feedback_train; a missing deprecated key is falsy, modelled as
false; a missing source key never equals the human-feedback tag). -/
structure KBPayload where
  question : String := ""
  answer : String := ""
  source : String := ""
  feedback_id : Option ℕ := none
  comment : Option String := none
  deprecated : Bool := false
  deriving Repr, DecidableEq

/-- One search hit as returned by db_utils.search_vectors
(fields id, score, payload). -/
structure KBHit where
  id : String
  score : Option ℚ := none
  payload : KBPayload := {}
  deriving Repr, DecidableEq

/-- One stored point of the vector collection. -/
structure KBPoint where
  id : String
  vector : List ℚ := []
  payload : KBPayload := {}
  deriving Repr, DecidableEq

/-- One row of the append-only feedback table (feedback_db.py). -/
structure FBRecord where
  id : ℕ
  question : String
  answer : String
  helpful : Bool
  corrected_answer : Option String := none
  comment : Option String := none
  deriving Repr, DecidableEq

/-- The two externally owned stores. -/
structure Store where
  kb : List KBPoint := []
  fb : List FBRecord := []
  deriving Repr, DecidableEq

/-- The collection name used by app.py. -/
def COLLECTION : String := "math_kb"

/-! ## db_utils.py -/

/-- External Qdrant client behaviour: client construction (get_qdrant_client,
which raises on failure) and the raw search call. -/
structure QdrantEnv where
  getClient : Except String Unit
  qdrantSearch : String → List ℚ → ℕ → Except String (List KBHit)

/-- db_utils.search_vectors: client construction failure propagates to the
caller, but a failing search call is caught and returned as an empty hit
list. -/
def search_vectors (env : QdrantEnv) (collection_name : String)
    (query_vector : List ℚ) (top : ℕ) : Except String (List KBHit) :=
  match env.getClient with
  | .error e => .error e
  | .ok _ =>
    match env.qdrantSearch collection_name query_vector top with
    | .error _ => .ok []
    | .ok hits => .ok hits

/-! ## web_search_helper.py -/

/-- One raw hit of the external Tavily response: optional fields keyed as in
the response dictionary (none models a missing key). -/
structure RawHit where
  title : Option String := none
  url : Option String := none
  snippet : Option String := none
  content_snippet : Option String := none
  score : Option ℚ := none
  deriving Repr, DecidableEq

/-- One processed web result. -/
structure WebResult where
  title : String
  url : String
  snippet : String
  score : Option ℚ := none
  deriving Repr, DecidableEq

/-- Outcome dictionary of search_web. -/
structure WebOutcome where
  ok : Bool
  results : List WebResult
  deriving Repr, DecidableEq

/-- Python falsy-or on an optional string with a fallback. -/
def pyOrStr (a : Option String) (b : String) : String :=
  match a with
  | some s => if s = "" then b else s
  | none => b

/-- Collapse every maximal run of non-ASCII characters into one space
(the re.sub of the sanitiser); fuel-bounded structural recursion, the fuel
never runs out since every step consumes at least one character. -/
def collapseNonAsciiFuel : ℕ → List Char → List Char
  | 0, _ => []
  | _, [] => []
  | fuel + 1, c :: rest =>
    if c.toNat ≤ 127 then c :: collapseNonAsciiFuel fuel rest
    else ' ' :: collapseNonAsciiFuel fuel (rest.dropWhile (fun d => decide (127 < d.toNat)))

/-- Collapse non-ASCII runs to single spaces. -/
def collapseNonAscii (cs : List Char) : List Char :=
  collapseNonAsciiFuel cs.length cs

/-- web_search_helper sanitiser: straighten curly quotes, collapse non-ASCII
runs to spaces, strip. -/
def sanitizeQuery (q : String) : String :=
  let cs := q.toList.map (fun c =>
    if c = '’' then '\'' else if c = '“' then '"' else if c = '”' then '"' else c)
  String.mk (pyStripList (collapseNonAscii cs))

/-- Raw snippet selection of search_web: the snippet field when present and
truthy, else the content_snippet field when its key is present, else empty. -/
def rawSnippet (h : RawHit) : String :=
  match h.snippet with
  | some s => if s = "" then (match h.content_snippet with
                              | some c => c
                              | none => "")
              else s
  | none => match h.content_snippet with
            | some c => c
            | none => ""

/-- Per-hit processing of search_web: title and url with falsy-or defaults,
snippet unescaped and stripped. -/
def processHit (unescape : String → String) (h : RawHit) : WebResult :=
  { title := pyOrStr h.title (pyOrStr h.url "")
    url := pyOrStr h.url ""
    snippet := pyStrip (unescape (rawSnippet h))
    score := h.score }

/-- External web-search behaviour: the Tavily client call and html.unescape. -/
structure WebEnv where
  tavily : String → String → ℕ → Except String (List RawHit)
  unescape : String → String

/-- One un-retried invocation of web_search_helper.search_web. -/
def searchWebOnce (env : WebEnv) (question : String) (depth : String)
    (limit : ℕ) : WebOutcome :=
  let q := sanitizeQuery question
  match env.tavily q depth limit with
  | .error _ => ⟨false, []⟩
  | .ok hits => ⟨true, (hits.take limit).map (processHit env.unescape)⟩

/-- web_search_helper.search_web: a transport failure yields not-ok with an
empty result list; an empty successful result at basic depth is retried once
at advanced depth. -/
def search_web (env : WebEnv) (question : String) (depth : String)
    (limit : ℕ) : WebOutcome :=
  let r := searchWebOnce env question depth limit
  if r.ok && r.results.isEmpty && depth = "basic" then
    searchWebOnce env question "advanced" limit
  else r

/-! ## app.py ask router -/

/-- The HTTP-level observable outcome of a request. -/
inductive AskResult
  | httpError (code : ℕ) (detail : String)
  | answer (source text : String)
  deriving Repr, DecidableEq

/-- Downstream work attempted during one ask request, in order. -/
inductive Evt
  | classify
  | arith
  | linear
  | deriv
  | embed
  | vecSearch
  | web
  | llm
  deriving Repr, DecidableEq

/-- Environment of external services for the ask router. -/
structure AskEnv where
  encode : String → Except String (List ℚ)
  qdrant : QdrantEnv
  webEnv : WebEnv
  groqConfigured : Bool
  llm : String → List String → Except String String

/-- Adjusted ranking score of one hit (app.py lines 224 to 227): the raw
score with falsy-or default zero, plus the fixed boost exactly for
human-feedback provenance. -/
def adjScore (h : KBHit) : ℚ :=
  (h.score.getD 0) + (if h.payload.source = "human_feedback" then 0.25 else 0)

/-- Stable descending insertion of a scored hit into an already sorted
suffix of later elements: the inserted (earlier) element goes before every
later element of smaller-or-equal score, so equal scores keep their
original order, as Python's stable sort does. -/
def insertDesc (x : ℚ × KBHit) : List (ℚ × KBHit) → List (ℚ × KBHit)
  | [] => [x]
  | y :: rest => if y.1 ≤ x.1 then x :: y :: rest else y :: insertDesc x rest

/-- Stable sort by score descending (Python list.sort with reverse true is
stable; a stable descending sort is unique, so insertion sort models it
exactly). -/
def sortDesc : List (ℚ × KBHit) → List (ℚ × KBHit)
  | [] => []
  | x :: rest => insertDesc x (sortDesc rest)

/-- Hit processing of the ask router (app.py lines 218 to 228): drop
deprecated payloads, attach adjusted scores, stable-sort descending. -/
def processHits (hits : List KBHit) : List (ℚ × KBHit) :=
  let processed := (hits.filter (fun h => !h.payload.deprecated)).map
    (fun h => (adjScore h, h))
  sortDesc processed

/-- Python str.strip of leading and trailing stars (str.strip with an
argument), used on the generative reply. -/
def pyStripStars (s : String) : String :=
  String.mk (((s.toList.dropWhile (fun c => c = '*')).reverse.dropWhile
    (fun c => c = '*')).reverse)

/-- The part of the ask router from the web-search tier on (app.py lines
235 to 259): best-effort web context, knowledge-base context, generative
fallback. -/
def askFallback (env : AskEnv) (question : String)
    (processed : List (ℚ × KBHit)) (tr : List Evt) : AskResult × List Evt :=
  let tr := tr ++ [Evt.web]
  let res := search_web env.webEnv question "basic" 3
  let webSnips :=
    if res.ok then
      (res.results.take 3).map (fun r =>
        "Source: " ++ r.title ++ " (" ++ r.url ++ ")\n" ++ r.snippet)
    else []
  let kbSnips := processed.map (fun p =>
    p.2.payload.source ++ ": Q: " ++ p.2.payload.question ++ " — A: "
      ++ p.2.payload.answer)
  let context_snippets := webSnips ++ kbSnips
  if env.groqConfigured then
    match env.llm question context_snippets with
    | .ok text => (AskResult.answer "grok" (pyStripStars (pyStrip text)), tr ++ [Evt.llm])
    | .error e => (AskResult.answer "fallback" ("LLM error: " ++ e), tr ++ [Evt.llm])
  else (AskResult.answer "fallback" "No confident match or LLM.", tr)

/-- Truthiness wrapper for the derivative tier (app.py uses if d, so an
empty string would be treated as a non-match). -/
def derivTruthy (q : String) : Option String :=
  match try_derivative_lookup q with
  | some d => if d = "" then none else some d
  | none => none

/-- The /api/ask router of app.py: validation, guardrails, deterministic
solver tiers, retrieval with boost and deprecation filtering, then the
best-effort fallback tiers. Alongside the response, the list of attempted
downstream steps is returned in order. -/
def ask (env : AskEnv) (raw : String) : AskResult × List Evt :=
  let question := pyStrip raw
  if question = "" then (AskResult.httpError 400 "Empty question", [])
  else if contains_prompt_injection question then
    (AskResult.httpError 400 "Unsafe input blocked", [])
  else if !is_math_question question then
    (AskResult.answer "guardrail" "I only handle math questions.", [Evt.classify])
  else
    let q_lower := pyLower question
    match try_compute_arithmetic question with
    | some ar => (AskResult.answer "computed" ar, [Evt.classify, Evt.arith])
    | none =>
      let linStep : Option String × List Evt :=
        if nonLinearSearch q_lower.toList then (none, [Evt.classify, Evt.arith])
        else (try_solve_linear question, [Evt.classify, Evt.arith, Evt.linear])
      match linStep with
      | (some sol, tr) => (AskResult.answer "solver" sol, tr)
      | (none, tr) =>
        let tr := tr ++ [Evt.deriv]
        match derivTruthy question with
        | some d => (AskResult.answer "lookup" d, tr)
        | none =>
          let tr := tr ++ [Evt.embed]
          match env.encode question with
          | .error e => (AskResult.httpError 500 ("KB error: " ++ e), tr)
          | .ok qv =>
            let tr := tr ++ [Evt.vecSearch]
            match search_vectors env.qdrant COLLECTION qv 10 with
            | .error e => (AskResult.httpError 500 ("KB error: " ++ e), tr)
            | .ok hits =>
              let processed := processHits hits
              match processed with
              | (top_score, top_hit) :: _ =>
                if top_score > 0.85 then
                  (AskResult.answer "kb" top_hit.payload.answer, tr)
                else askFallback env question processed tr
              | [] => askFallback env question processed tr

/-! ## feedback_db.py and the /api/feedback/train handler of app.py -/

/-- External behaviour of the train operation: sqlite insert success, the
embedder, the generated point id, upsert success, the Qdrant client used by
the sweep, and per-id failure of the payload update call. -/
structure TrainEnv where
  saveOk : Bool
  encode : String → Except String (List ℚ)
  newId : String
  upsertOk : Bool
  qdrant : QdrantEnv
  updateFails : String → Bool

/-- feedback_db.save_feedback: append one row (auto-increment id modelled as
successor of the row count); a failing insert leaves the table unchanged. -/
def save_feedback (ok : Bool) (st : Store) (question answer : String)
    (helpful : Bool) (corrected_answer comment : Option String) :
    Except String (ℕ × Store) :=
  if ok then
    let fb_id := st.fb.length + 1
    .ok (fb_id, { st with
      fb := st.fb ++ [⟨fb_id, question, answer, helpful, corrected_answer, comment⟩] })
  else .error "sqlite insert failed"

/-- db_utils.upsert_points for a single point: insert-or-replace keyed by
id. -/
def upsertPoint (kb : List KBPoint) (p : KBPoint) : List KBPoint :=
  if kb.any (fun q => q.id = p.id) then
    kb.map (fun q => if q.id = p.id then p else q)
  else kb ++ [p]

/-- Mark one stored point deprecated (the payload update of the sweep). -/
def setDeprecated (kb : List KBPoint) (pid : String) : List KBPoint :=
  kb.map (fun q =>
    if q.id = pid then { q with payload := { q.payload with deprecated := true } }
    else q)

/-- Loop body of the deprecation sweep (app.py lines 324 to 332): skip the
point just inserted, mark qualifying neighbours deprecated; a failing client
construction or update call aborts the remaining loop, keeping partial
updates (the surrounding try swallows the error). -/
def sweepGo (env : TrainEnv) (newId : String) : Store → List KBHit → Store
  | st, [] => st
  | st, s :: rest =>
    if s.id = newId then sweepGo env newId st rest
    else if s.score.getD 0 > 0.7 then
      match env.qdrant.getClient with
      | .error _ => st
      | .ok _ =>
        if env.updateFails s.id then st
        else sweepGo env newId { st with kb := setDeprecated st.kb s.id } rest
    else sweepGo env newId st rest

/-- The deprecation sweep: re-query neighbours of the new vector and mark
similar older entries deprecated; every failure is swallowed. -/
def sweep (env : TrainEnv) (st : Store) (vec : List ℚ) (newId : String) : Store :=
  match search_vectors env.qdrant COLLECTION vec 6 with
  | .error _ => st
  | .ok sim => sweepGo env newId st sim

/-- Response of the train endpoint. -/
inductive FBResp
  | ok (id : ℕ)
  | err (msg : String)
  deriving Repr, DecidableEq

/-- The /api/feedback/train handler of app.py: validate, append the audit
row, embed, upsert the human-feedback point, then run the best-effort
deprecation sweep. The surrounding try turns every raised error into an
ok-false response; each failure keeps exactly the state mutations already
committed. -/
def feedback_train (env : TrainEnv) (st : Store) (question corrected_answer : String)
    (comment : Option String) : FBResp × Store :=
  if question = "" || corrected_answer = "" then (FBResp.err "Missing fields", st)
  else
    match save_feedback env.saveOk st question "" false (some corrected_answer) comment with
    | .error e => (FBResp.err e, st)
    | .ok (fb_id, st1) =>
      match env.encode question with
      | .error e => (FBResp.err e, st1)
      | .ok vec =>
        let new_point : KBPoint :=
          { id := env.newId
            vector := vec
            payload :=
              { question := question
                answer := corrected_answer
                source := "human_feedback"
                feedback_id := some fb_id
                comment := comment
                deprecated := false } }
        if !env.upsertOk then (FBResp.err "qdrant upsert failed", st1)
        else
          let st2 := { st1 with kb := upsertPoint st1.kb new_point }
          let st3 := sweep env st2 vec new_point.id
          (FBResp.ok fb_id, st3)

/-- A question reaches the retrieval tier of ask when it survives
validation and the guardrails and no deterministic solver matches. -/
def reachesRetrieval (q : String) : Bool :=
  let question := pyStrip q
  !(question = "") && !contains_prompt_injection question
    && is_math_question question
    && (try_compute_arithmetic question).isNone
    && (nonLinearSearch (pyLower question).toList || (try_solve_linear question).isNone)
    && (derivTruthy question).isNone

/-! ## Concrete environments and fixtures used by witnesses and
counterexamples -/

/-- A Qdrant environment whose client constructs and whose search returns
no hits. -/
def trivialQdrant : QdrantEnv := ⟨.ok (), fun _ _ _ => .ok []⟩

/-- A web environment whose transport always fails. -/
def trivialWebEnv : WebEnv := ⟨fun _ _ _ => .error "no web", id⟩

/-- A fully healthy but empty environment: embedding succeeds, the store is
reachable and empty, web search fails, no generative credential. -/
def trivialAskEnv : AskEnv :=
  { encode := fun _ => .ok []
    qdrant := trivialQdrant
    webEnv := trivialWebEnv
    groqConfigured := false
    llm := fun _ _ => .error "none" }

/-- An environment where the vector-store search call itself raises. -/
def searchDownEnv : AskEnv :=
  { trivialAskEnv with qdrant := ⟨.ok (), fun _ _ _ => .error "qdrant down"⟩ }

/-- An environment where the embedding call raises. -/
def embedDownEnv : AskEnv :=
  { trivialAskEnv with encode := fun _ => .error "embed down" }

/-- A deprecated stored entry whose raw similarity is far above the
confidence threshold. -/
def deprecatedHit : KBHit :=
  ⟨"dep", some 0.95, { answer := "stale answer", source := "seed", deprecated := true }⟩

/-- A seed entry with raw similarity 0.80. -/
def seedHit : KBHit := ⟨"seed1", some 0.80, { answer := "seed answer", source := "seed" }⟩

/-- A human-feedback entry with raw similarity 0.65 (adjusted 0.90). -/
def hfHit : KBHit :=
  ⟨"hf1", some 0.65, { answer := "hf answer", source := "human_feedback" }⟩

/-- A web environment returning a single 350-character snippet. -/
def bigSnippetEnv : WebEnv :=
  ⟨fun _ _ _ => .ok [{ snippet := some (String.mk (List.replicate 350 'a')) }], id⟩

/-- A train environment where every call succeeds and the sweep finds no
neighbours. -/
def trainOkEnv : TrainEnv :=
  ⟨true, fun _ => .ok [], "uuid-1", true, trivialQdrant, fun _ => false⟩

/-- A train environment whose sqlite insert fails. -/
def trainSaveFailEnv : TrainEnv := { trainOkEnv with saveOk := false }

/-! # Theorems -/

/-! ## General helper lemmas -/

/-- toList of a list-built string. -/
theorem toList_mk (l : List Char) : (String.mk l).toList = l := rfl

/-- dropWhile is the identity when the head (if any) fails the predicate. -/
theorem dropWhile_eq_self_of_head {α : Type} {p : α → Bool} :
    ∀ {l : List α}, (∀ c t, l = c :: t → p c = false) → l.dropWhile p = l
  | [], _ => rfl
  | c :: t, h => by
    rw [List.dropWhile_cons, h c t rfl]
    simp

/-- Python strip is the identity when neither end is whitespace. -/
theorem pyStripList_eq_self {l : List Char}
    (hh : ∀ c t, l = c :: t → isPySpace c = false)
    (hl : ∀ c t, l.reverse = c :: t → isPySpace c = false) :
    pyStripList l = l := by
  unfold pyStripList
  rw [dropWhile_eq_self_of_head hh, dropWhile_eq_self_of_head hl, List.reverse_reverse]

/-- The trace added by the fallback tiers: web search, then possibly the
generative call. -/
theorem askFallback_trace (env : AskEnv) (q : String) (p : List (ℚ × KBHit))
    (tr : List Evt) :
    (askFallback env q p tr).2 = tr ++ [Evt.web] ∨
      (askFallback env q p tr).2 = tr ++ [Evt.web, Evt.llm] := by
  unfold askFallback
  by_cases hg : env.groqConfigured = true
  · rw [if_pos hg]
    rcases env.llm q _ with e | t
    · right; simp
    · right; simp
  · rw [if_neg hg]
    left; rfl

/-! ## C7 -/

/-- C7: for every input whose stripped text contains a deny-listed
injection phrase, /api/ask rejects with a 400 and attempts none of the
downstream steps (domain classification, solvers, retrieval, augmentation,
generative call): the trace is empty. -/
theorem injection_blocked_before_all_tiers (env : AskEnv) (q : String)
    (h : contains_prompt_injection (pyStrip q) = true) :
    ask env q = (AskResult.httpError 400 "Unsafe input blocked", []) := by
  have hne : ¬ pyStrip q = "" := by
    intro he
    rw [he] at h
    exact absurd h (by with_unfolding_all decide)
  unfold ask
  rw [if_neg hne, if_pos h]

/-- Witness for C7 at a concrete blocked input and a healthy environment. -/
theorem injection_blocked_before_all_tiers_witness :
    contains_prompt_injection (pyStrip " jailbreak: what is 2+2") = true ∧
    ask trivialAskEnv " jailbreak: what is 2+2" =
      (AskResult.httpError 400 "Unsafe input blocked", []) :=
  ⟨by with_unfolding_all decide,
   injection_blocked_before_all_tiers trivialAskEnv " jailbreak: what is 2+2"
     (by with_unfolding_all decide)⟩

/-! ## C9 -/

/-- C9: the linear solver does not reject a second occurrence of the
variable; on the input with two variable occurrences it treats the second
coefficient as a constant and answers x = 3 (the mathematically correct
solution of the equation would be x = 2, and the spec requires a
non-match). -/
theorem linear_solver_double_variable_bug :
    try_solve_linear "x + x = 4" = some "x = 3" := by
  with_unfolding_all decide

/-! ## C3 -/

/-- C3 counterexample: the input contains the caret-exponent token x^2 as a
substring, yet the router invokes the linear solver on it (the guard regex
requires a word boundary, which the preceding letter removes). -/
theorem caret_input_reaches_linear_solver :
    strIn "x^2" "ax^2=4" = true ∧ Evt.linear ∈ (ask trivialAskEnv "ax^2=4").2 := by
  with_unfolding_all decide

/-- C3 amended: whenever the router's non-linear marker regex matches the
lower-cased stripped question, the linear solver step never appears in the
attempted trace; inputs where every marker occurrence lacks the required
word boundary (such as ax^2=4) do reach the solver, which rejects them
internally. -/
theorem nonlinear_guard_skips_solver (env : AskEnv) (q : String)
    (h : nonLinearSearch (pyLower (pyStrip q)).toList = true) :
    Evt.linear ∉ (ask env q).2 := by
  unfold ask
  by_cases h0 : pyStrip q = ""
  · rw [if_pos h0]; simp
  rw [if_neg h0]
  by_cases h1 : contains_prompt_injection (pyStrip q) = true
  · rw [if_pos h1]; simp
  rw [if_neg h1]
  by_cases h2 : (!is_math_question (pyStrip q)) = true
  · rw [if_pos h2]; simp
  rw [if_neg h2]
  rcases ha : try_compute_arithmetic (pyStrip q) with _ | ar
  · dsimp only
    rw [if_pos h]
    dsimp only
    rcases hd : derivTruthy (pyStrip q) with _ | d
    · dsimp only
      rcases he : env.encode (pyStrip q) with e | qv
      · dsimp only; simp
      · dsimp only
        rcases hs : search_vectors env.qdrant COLLECTION qv 10 with e | hits
        · dsimp only; simp
        · dsimp only
          rcases hp : processHits hits with _ | ⟨⟨ts, th⟩, rest⟩
          · dsimp only
            simp only [List.cons_append, List.nil_append]
            rcases askFallback_trace env (pyStrip q) []
                [Evt.classify, Evt.arith, Evt.deriv, Evt.embed, Evt.vecSearch] with hf | hf
            · rw [hf]; simp
            · rw [hf]; simp
          · dsimp only
            simp only [List.cons_append, List.nil_append]
            by_cases hts : ts > 0.85
            · rw [if_pos hts]; simp
            · rw [if_neg hts]
              rcases askFallback_trace env (pyStrip q) ((ts, th) :: rest)
                  [Evt.classify, Evt.arith, Evt.deriv, Evt.embed, Evt.vecSearch] with hf | hf
              · rw [hf]; simp
              · rw [hf]; simp
    · dsimp only; simp
  · dsimp only; simp

/-- Witness for the amended C3 at an input the guard does match. -/
theorem nonlinear_guard_skips_solver_witness :
    nonLinearSearch (pyLower (pyStrip "x^2 = 4")).toList = true ∧
    Evt.linear ∉ (ask trivialAskEnv "x^2 = 4").2 :=
  ⟨by with_unfolding_all decide,
   nonlinear_guard_skips_solver trivialAskEnv "x^2 = 4" (by with_unfolding_all decide)⟩

/-! ## C4 -/

/-- C4 counterexample: on the exact question of the claim the arithmetic
regex (anchored to the whole string) does not match, so the computed tier
never fires; in a healthy empty environment the request falls through to
the terminal fallback instead of answering computed 4. -/
theorem what_is_2_plus_2_not_computed :
    try_compute_arithmetic "What is 2 + 2?" = none ∧
    (ask trivialAskEnv "What is 2 + 2?").1 ≠ AskResult.answer "computed" "4" ∧
    (ask trivialAskEnv "What is 2 + 2?").1 =
      AskResult.answer "fallback" "No confident match or LLM." := by
  with_unfolding_all decide

/-- C4 amended: the arithmetic fast path answers only when the entire
stripped question is a bare two-operand expression; the bare input 2 + 2
yields source computed and text 4 in every environment, while the sentence
form of the claim does not match the arithmetic tier at all. -/
theorem bare_arithmetic_computed (env : AskEnv) :
    ask env "2 + 2" = (AskResult.answer "computed" "4", [Evt.classify, Evt.arith]) ∧
    try_compute_arithmetic "What is 2 + 2?" = none := by
  constructor
  · have h0 : pyStrip "2 + 2" = "2 + 2" := by with_unfolding_all decide
    have h1 : ¬ ("2 + 2" : String) = "" := by decide
    have h2 : ¬ contains_prompt_injection "2 + 2" = true := by
      with_unfolding_all decide
    have h3 : ¬ (!is_math_question "2 + 2") = true := by
      with_unfolding_all decide
    have h4 : try_compute_arithmetic "2 + 2" = some "4" := by
      with_unfolding_all decide
    unfold ask
    rw [h0, if_neg h1, if_neg h2, if_neg h3, h4]
  · with_unfolding_all decide

/-! ## C1 -/

/-- C1 counterexample: the vector-store search call itself fails in this
environment, yet the request on a question that reaches retrieval does not
surface a 500: search_vectors swallows the error into an empty hit list and
the request degrades to the fallback tiers. -/
theorem search_call_failure_not_500 :
    searchDownEnv.qdrant.qdrantSearch COLLECTION [] 10 = Except.error "qdrant down" ∧
    reachesRetrieval "geometry" = true ∧
    ask searchDownEnv "geometry" =
      (AskResult.answer "fallback" "No confident match or LLM.",
       [Evt.classify, Evt.arith, Evt.linear, Evt.deriv, Evt.embed, Evt.vecSearch,
        Evt.web]) :=
  ⟨rfl, by with_unfolding_all decide, by with_unfolding_all decide⟩

/-- C1 amended: for a question that reaches the retrieval tier, a failing
embedding call or a failing Qdrant client construction surfaces as a 500
server error, but a failure of the vector-store search call itself is
caught inside search_vectors, treated as zero results, and the request
degrades to the augmentation and generative tiers. -/
theorem retrieval_error_surfacing (env : AskEnv) (q : String)
    (hre : reachesRetrieval q = true) :
    (∀ e, env.encode (pyStrip q) = Except.error e →
        (ask env q).1 = AskResult.httpError 500 ("KB error: " ++ e)) ∧
    (∀ qv m, env.encode (pyStrip q) = Except.ok qv →
        env.qdrant.getClient = Except.error m →
        (ask env q).1 = AskResult.httpError 500 ("KB error: " ++ m)) ∧
    (∀ qv m, env.encode (pyStrip q) = Except.ok qv →
        env.qdrant.getClient = Except.ok () →
        env.qdrant.qdrantSearch COLLECTION qv 10 = Except.error m →
        ∃ s t, (ask env q).1 = AskResult.answer s t ∧
          (s = "grok" ∨ s = "fallback")) := by
  simp only [reachesRetrieval, Bool.and_eq_true, Bool.not_eq_true',
    Option.isNone_iff_eq_none, Bool.or_eq_true] at hre
  obtain ⟨⟨⟨⟨⟨h0, h1⟩, h2⟩, h3⟩, h4⟩, h5⟩ := hre
  have hlin :
      (if nonLinearSearch (pyLower (pyStrip q)).toList = true
        then ((none : Option String), [Evt.classify, Evt.arith])
        else (try_solve_linear (pyStrip q), [Evt.classify, Evt.arith, Evt.linear]))
        = (none, [Evt.classify, Evt.arith]) ∨
      (if nonLinearSearch (pyLower (pyStrip q)).toList = true
        then ((none : Option String), [Evt.classify, Evt.arith])
        else (try_solve_linear (pyStrip q), [Evt.classify, Evt.arith, Evt.linear]))
        = (none, [Evt.classify, Evt.arith, Evt.linear]) := by
    rcases h4 with h4 | h4
    · left; rw [if_pos h4]
    · by_cases hnl : nonLinearSearch (pyLower (pyStrip q)).toList = true
      · left; rw [if_pos hnl]
      · right; rw [if_neg hnl, h4]
  refine ⟨?_, ?_, ?_⟩
  all_goals
    unfold ask
    rw [if_neg (by simpa using h0), if_neg (by simp [h1]), if_neg (by simp [h2]), h3]
    dsimp only
  · intro e he
    rcases hlin with hl | hl <;> rw [hl] <;> dsimp only <;>
      rw [h5] <;> dsimp only <;> rw [he]
  · intro qv m he hc
    rcases hlin with hl | hl <;> rw [hl] <;> dsimp only <;>
      rw [h5] <;> dsimp only <;> rw [he] <;> dsimp only <;>
      · unfold search_vectors
        rw [hc]
  · intro qv m he hc hs
    rcases hlin with hl | hl <;> rw [hl] <;> dsimp only <;>
      rw [h5] <;> dsimp only <;> rw [he] <;> dsimp only <;>
      · unfold search_vectors
        rw [hc]
        dsimp only
        rw [hs]
        dsimp only
        have hph : processHits [] = [] := rfl
        rw [hph]
        unfold askFallback
        by_cases hg : env.groqConfigured = true
        · rw [if_pos hg]
          rcases env.llm (pyStrip q) _ with e' | t'
          · exact ⟨"fallback", _, rfl, Or.inr rfl⟩
          · exact ⟨"grok", _, rfl, Or.inl rfl⟩
        · rw [if_neg hg]
          exact ⟨"fallback", _, rfl, Or.inr rfl⟩

/-- Witness for the amended C1: the embedding failure surfaces as a 500 on
a retrieval-reaching question. -/
theorem retrieval_error_surfacing_witness :
    reachesRetrieval "geometry" = true ∧
    embedDownEnv.encode (pyStrip "geometry") = Except.error "embed down" ∧
    (ask embedDownEnv "geometry").1 = AskResult.httpError 500 ("KB error: " ++ "embed down") :=
  ⟨by with_unfolding_all decide, rfl,
   (retrieval_error_surfacing embedDownEnv "geometry"
     (by with_unfolding_all decide)).1 "embed down" rfl⟩

/-! ## C8 -/

set_option maxRecDepth 8000 in
/-- C8 counterexample: a 350-character raw snippet is returned verbatim by
search_web, with its full length and no ellipsis marker appended: the
results are not truncated to any bounded length. -/
theorem snippet_passes_through_unbounded :
    (search_web bigSnippetEnv "q" "basic" 3).results =
      [{ title := "", url := "", snippet := String.mk (List.replicate 350 'a'),
         score := none }] ∧
    ((search_web bigSnippetEnv "q" "basic" 3).results.map
      (fun r => r.snippet.length)) = [350] ∧
    strIn "..." (String.mk (List.replicate 350 'a')) = false := by
  with_unfolding_all decide

/-- C8 amended: search_web never truncates: every returned result is the
raw hit processed by html-unescaping and stripping only, and the processed
snippet equals the unescaped, stripped raw snippet at any length, with no
truncation marker appended. -/
theorem web_snippets_pass_through (env : WebEnv) (question depth : String)
    (limit : ℕ) :
    (∀ r ∈ (search_web env question depth limit).results,
        ∃ h : RawHit, r = processHit env.unescape h) ∧
    (∀ (u : String → String) (h : RawHit),
        (processHit u h).snippet = pyStrip (u (rawSnippet h))) := by
  constructor
  · have key : ∀ (d : String) (r : WebResult),
        r ∈ (searchWebOnce env question d limit).results →
        ∃ h : RawHit, r = processHit env.unescape h := by
      intro d r hr
      unfold searchWebOnce at hr
      dsimp only at hr
      rcases ht : env.tavily (sanitizeQuery question) d limit with e | hits <;>
        rw [ht] at hr <;> dsimp only at hr
      · simp at hr
      · simp only [List.mem_map] at hr
        obtain ⟨h, _, hh⟩ := hr
        exact ⟨h, hh.symm⟩
    intro r hr
    unfold search_web at hr
    dsimp only at hr
    split at hr
    · exact key "advanced" r hr
    · exact key depth r hr
  · intro u h
    rfl

set_option maxRecDepth 8000 in
/-- Witness for the amended C8 at the concrete long-snippet environment. -/
theorem web_snippets_pass_through_witness :
    ∃ h : RawHit,
      ({ title := "", url := "", snippet := String.mk (List.replicate 350 'a'),
         score := none } : WebResult) = processHit bigSnippetEnv.unescape h :=
  (web_snippets_pass_through bigSnippetEnv "q" "basic" 3).1 _
    (by with_unfolding_all decide)

/-! ## Ranking lemmas shared by C2 and C5 -/

/-- Membership through the stable descending insertion. -/
theorem mem_insertDesc {x p : ℚ × KBHit} :
    ∀ l : List (ℚ × KBHit), p ∈ insertDesc x l ↔ p = x ∨ p ∈ l
  | [] => by simp [insertDesc]
  | y :: rest => by
    unfold insertDesc
    by_cases h : y.1 ≤ x.1
    · rw [if_pos h]
      simp only [List.mem_cons]
    · rw [if_neg h]
      simp only [List.mem_cons, mem_insertDesc rest]
      tauto

/-- Membership through the stable descending sort. -/
theorem mem_sortDesc {p : ℚ × KBHit} :
    ∀ l : List (ℚ × KBHit), p ∈ sortDesc l ↔ p ∈ l
  | [] => Iff.rfl
  | y :: rest => by
    unfold sortDesc
    rw [mem_insertDesc, List.mem_cons, mem_sortDesc rest]

/-- Insertion preserves the descending pairwise order. -/
theorem pairwise_insertDesc {x : ℚ × KBHit} :
    ∀ l : List (ℚ × KBHit),
      List.Pairwise (fun a b : ℚ × KBHit => b.1 ≤ a.1) l →
      List.Pairwise (fun a b : ℚ × KBHit => b.1 ≤ a.1) (insertDesc x l)
  | [], _ => by simp [insertDesc]
  | y :: rest, hp => by
    unfold insertDesc
    rcases List.pairwise_cons.1 hp with ⟨hy, hrest⟩
    by_cases h : y.1 ≤ x.1
    · rw [if_pos h]
      refine List.pairwise_cons.2 ⟨?_, hp⟩
      intro z hz
      rcases List.mem_cons.1 hz with rfl | hz
      · exact h
      · exact le_trans (hy z hz) h
    · rw [if_neg h]
      refine List.pairwise_cons.2 ⟨?_, pairwise_insertDesc rest hrest⟩
      intro z hz
      rcases (mem_insertDesc rest).1 hz with rfl | hz
      · exact le_of_lt (not_le.1 h)
      · exact hy z hz

/-- The stable descending sort is sorted by adjusted score descending. -/
theorem pairwise_sortDesc :
    ∀ l : List (ℚ × KBHit),
      List.Pairwise (fun a b : ℚ × KBHit => b.1 ≤ a.1) (sortDesc l)
  | [] => List.Pairwise.nil
  | _ :: rest => pairwise_insertDesc (sortDesc rest) (pairwise_sortDesc rest)

/-- Everything the ranking keeps is non-deprecated. -/
theorem processHits_deprecated_false {hits : List KBHit} {p : ℚ × KBHit}
    (hp : p ∈ processHits hits) : p.2.payload.deprecated = false := by
  unfold processHits at hp
  rcases List.mem_map.1 ((mem_sortDesc _).1 hp) with ⟨h, hmem, hEq⟩
  rcases List.mem_filter.1 hmem with ⟨_, hdep⟩
  rw [← hEq]
  simpa using hdep

/-- A fallback-tier outcome never carries the kb source tag. -/
theorem askFallback_not_kb (env : AskEnv) (q : String) (pr : List (ℚ × KBHit))
    (tr : List Evt) (t : String) (tr' : List Evt) :
    askFallback env q pr tr ≠ (AskResult.answer "kb" t, tr') := by
  unfold askFallback
  by_cases hg : env.groqConfigured = true
  · rw [if_pos hg]
    rcases env.llm q _ with e | s <;> intro hcon <;>
      · rw [Prod.mk.injEq] at hcon
        rcases hcon with ⟨hcon, _⟩
        rw [AskResult.answer.injEq] at hcon
        exact absurd hcon.1 (by decide)
  · rw [if_neg hg]
    intro hcon
    rw [Prod.mk.injEq] at hcon
    rcases hcon with ⟨hcon, _⟩
    rw [AskResult.answer.injEq] at hcon
    exact absurd hcon.1 (by decide)

/-! ## C2 -/

/-- C2: a deprecated entry is discarded by the ranking before scoring and
sorting, and every confident kb answer of /api/ask comes from the head of
the ranked list, which is never deprecated, whatever its raw similarity
was. -/
theorem deprecated_never_confident :
    (∀ (hits : List KBHit) (p : ℚ × KBHit), p ∈ processHits hits →
        p.2.payload.deprecated = false) ∧
    (∀ (env : AskEnv) (q t : String) (tr : List Evt),
        ask env q = (AskResult.answer "kb" t, tr) →
        ∃ (qv : List ℚ) (hits : List KBHit) (s : ℚ) (h : KBHit)
          (rest : List (ℚ × KBHit)),
          env.encode (pyStrip q) = Except.ok qv ∧
          search_vectors env.qdrant COLLECTION qv 10 = Except.ok hits ∧
          processHits hits = (s, h) :: rest ∧ s > 0.85 ∧
          t = h.payload.answer ∧ h.payload.deprecated = false) := by
  constructor
  · intro hits p hp
    exact processHits_deprecated_false hp
  · intro env q t tr hres
    unfold ask at hres
    by_cases h0 : pyStrip q = ""
    · rw [if_pos h0] at hres; exact absurd hres (by simp)
    rw [if_neg h0] at hres
    by_cases h1 : contains_prompt_injection (pyStrip q) = true
    · rw [if_pos h1] at hres; exact absurd hres (by simp)
    rw [if_neg h1] at hres
    by_cases h2 : (!is_math_question (pyStrip q)) = true
    · rw [if_pos h2] at hres
      rw [Prod.mk.injEq, AskResult.answer.injEq] at hres
      exact absurd hres.1.1 (by decide)
    rw [if_neg h2] at hres
    rcases ha : try_compute_arithmetic (pyStrip q) with _ | ar <;>
      rw [ha] at hres <;> dsimp only at hres
    · by_cases hnl : nonLinearSearch (pyLower (pyStrip q)).toList = true
      case neg =>
        rw [if_neg hnl] at hres
        rcases hls : try_solve_linear (pyStrip q) with _ | sol <;>
          rw [hls] at hres <;> dsimp only at hres
        · rcases hd : derivTruthy (pyStrip q) with _ | d <;> rw [hd] at hres <;>
            dsimp only at hres
          · rcases he : env.encode (pyStrip q) with e | qv <;> rw [he] at hres <;>
              dsimp only at hres
            · exact absurd hres (by simp)
            · rcases hs : search_vectors env.qdrant COLLECTION qv 10 with e | hits <;>
                rw [hs] at hres <;> dsimp only at hres
              · exact absurd hres (by simp)
              · rcases hph : processHits hits with _ | ⟨⟨ts, th⟩, rest⟩ <;>
                  rw [hph] at hres <;> dsimp only at hres
                · exact absurd hres (askFallback_not_kb env _ _ _ _ _)
                · by_cases hts : ts > 0.85
                  · rw [if_pos hts] at hres
                    rw [Prod.mk.injEq, AskResult.answer.injEq] at hres
                    exact ⟨qv, hits, ts, th, rest, rfl, hs, hph, hts, hres.1.2.symm,
                      processHits_deprecated_false
                        (by rw [hph]; exact List.mem_cons_self _ _)⟩
                  · rw [if_neg hts] at hres
                    exact absurd hres (askFallback_not_kb env _ _ _ _ _)
          · rw [Prod.mk.injEq, AskResult.answer.injEq] at hres
            exact absurd hres.1.1 (by decide)
        · rw [Prod.mk.injEq, AskResult.answer.injEq] at hres
          exact absurd hres.1.1 (by decide)
      case pos =>
        rw [if_pos hnl] at hres
        dsimp only at hres
        rcases hd : derivTruthy (pyStrip q) with _ | d <;> rw [hd] at hres <;>
          dsimp only at hres
        · rcases he : env.encode (pyStrip q) with e | qv <;> rw [he] at hres <;>
            dsimp only at hres
          · exact absurd hres (by simp)
          · rcases hs : search_vectors env.qdrant COLLECTION qv 10 with e | hits <;>
              rw [hs] at hres <;> dsimp only at hres
            · exact absurd hres (by simp)
            · rcases hph : processHits hits with _ | ⟨⟨ts, th⟩, rest⟩ <;>
                rw [hph] at hres <;> dsimp only at hres
              · exact absurd hres (askFallback_not_kb env _ _ _ _ _)
              · by_cases hts : ts > 0.85
                · rw [if_pos hts] at hres
                  rw [Prod.mk.injEq, AskResult.answer.injEq] at hres
                  exact ⟨qv, hits, ts, th, rest, rfl, hs, hph, hts, hres.1.2.symm,
                    processHits_deprecated_false
                      (by rw [hph]; exact List.mem_cons_self _ _)⟩
                · rw [if_neg hts] at hres
                  exact absurd hres (askFallback_not_kb env _ _ _ _ _)
        · rw [Prod.mk.injEq, AskResult.answer.injEq] at hres
          exact absurd hres.1.1 (by decide)
    · rw [Prod.mk.injEq, AskResult.answer.injEq] at hres
      exact absurd hres.1.1 (by decide)

/-- Witness for C2: in a store holding a deprecated high-similarity entry,
the ranked list contains the boosted human-feedback entry, and the claim
theorem yields that it is not deprecated. -/
theorem deprecated_never_confident_witness :
    ((0.9 : ℚ), hfHit) ∈ processHits [deprecatedHit, seedHit, hfHit] ∧
    ((0.9 : ℚ), hfHit).2.payload.deprecated = false :=
  ⟨by with_unfolding_all decide,
   deprecated_never_confident.1 [deprecatedHit, seedHit, hfHit] (0.9, hfHit)
     (by with_unfolding_all decide)⟩

/-! ## Character-class and scanning lemmas for C10 -/

/-- A whitespace character is not a digit. -/
theorem pySpace_not_digit {c : Char} (h : isPySpace c = true) : c.isDigit = false := by
  unfold isPySpace at h
  simp only [Bool.or_eq_true, decide_eq_true_eq] at h
  rcases h with ((((h | h) | h) | h) | h) | h <;> subst h <;> decide

/-- A digit is not whitespace. -/
theorem digit_not_pySpace {c : Char} (h : c.isDigit = true) : isPySpace c = false := by
  cases hs : isPySpace c
  · rfl
  · rw [pySpace_not_digit hs] at h
    cases h

/-- A digit differs from every non-digit character. -/
theorem digit_ne {c d : Char} (hc : c.isDigit = true) (hd : d.isDigit = false) :
    ¬ c = d := by
  intro he
  rw [he, hd] at hc
  cases hc

/-- A whitespace character differs from every non-whitespace character. -/
theorem pySpace_ne {c d : Char} (hc : isPySpace c = true) (hd : isPySpace d = false) :
    ¬ c = d := by
  intro he
  rw [he, hd] at hc
  cases hc

/-- Lower-casing fixes digits. -/
theorem asciiLower_digit {c : Char} (h : c.isDigit = true) : asciiLower c = c := by
  unfold asciiLower
  rw [if_neg]
  rintro ⟨h1, h2⟩
  unfold Char.isDigit at h
  simp only [Bool.and_eq_true, decide_eq_true_eq] at h
  have h1' : ('A' : Char).val ≤ c.val := h1
  exact absurd (UInt32.le_trans h1' h.2) (by decide)

/-- Lower-casing fixes whitespace. -/
theorem asciiLower_pySpace {c : Char} (h : isPySpace c = true) : asciiLower c = c := by
  unfold isPySpace at h
  simp only [Bool.or_eq_true, decide_eq_true_eq] at h
  rcases h with ((((h | h) | h) | h) | h) | h <;> subst h <;> decide

/-- A map that fixes every element is the identity. -/
theorem map_id_of_fixed {f : Char → Char} :
    ∀ l : List Char, (∀ a ∈ l, f a = a) → l.map f = l
  | [], _ => rfl
  | a :: l, h => by
    rw [List.map_cons, h a (List.mem_cons_self _ _),
      map_id_of_fixed l (fun b hb => h b (List.mem_cons_of_mem _ hb))]

/-- takeWhile and dropWhile split an all-true prefix followed by a suffix
whose head is false. -/
theorem splitWhile_append {α : Type} {p : α → Bool} :
    ∀ (l r : List α), (∀ a ∈ l, p a = true) →
      (∀ c t, r = c :: t → p c = false) →
      (l ++ r).takeWhile p = l ∧ (l ++ r).dropWhile p = r
  | [], r, _, hr => by
    rw [List.nil_append]
    refine ⟨?_, dropWhile_eq_self_of_head hr⟩
    cases r with
    | nil => rfl
    | cons c t =>
      rw [List.takeWhile_cons, hr c t rfl]
      simp
  | a :: l, r, hl, hr => by
    have hpa : p a = true := hl a (List.mem_cons_self _ _)
    have ih := splitWhile_append l r (fun b hb => hl b (List.mem_cons_of_mem _ hb)) hr
    rw [List.cons_append, List.takeWhile_cons, List.dropWhile_cons, hpa]
    simp only [if_true]
    exact ⟨by rw [ih.1], ih.2⟩

/-- The head of an all-true run followed by a known character is not a
digit when neither is. -/
theorem head_cases {q : Char → Bool} {sp rest : List Char} {c0 : Char}
    (hs : ∀ a ∈ sp, q a = false) (hc0 : q c0 = false) :
    ∀ c t, (sp ++ c0 :: rest) = c :: t → q c = false := by
  intro c t heq
  cases sp with
  | nil =>
    rw [List.nil_append] at heq
    injection heq with h1 _
    rw [← h1]
    exact hc0
  | cons s sp' =>
    rw [List.cons_append] at heq
    injection heq with h1 _
    rw [← h1]
    exact hs s (List.mem_cons_self _ _)

/-- Substring membership implies element membership. -/
theorem listIn_mem {pat : List Char} :
    ∀ {s : List Char}, listIn pat s = true → ∀ a ∈ pat, a ∈ s := by
  intro s
  induction s with
  | nil =>
    intro h a ha
    unfold listIn at h
    rw [List.isEmpty_iff] at h
    rw [h] at ha
    cases ha
  | cons c rest ih =>
    intro h a ha
    unfold listIn at h
    rw [Bool.or_eq_true] at h
    rcases h with h | h
    · exact (List.isPrefixOf_iff_prefix.1 h).subset ha
    · exact List.mem_cons_of_mem _ (ih h a ha)

/-- A phrase holding a character outside the good set cannot occur inside a
string of good characters. -/
theorem no_phrase_in_good (pat lw : List Char) (w : Char) (hw : w ∈ pat)
    (hbad : (w.isDigit || (isPySpace w || decide (w = 'x'))) = false)
    (hgood : ∀ ch ∈ lw, (ch.isDigit || (isPySpace ch || decide (ch = 'x'))) = true) :
    ¬ listIn pat lw = true := by
  intro h
  exact absurd (hgood w (listIn_mem h w hw)) (by simp [hbad])

/-- A question made of digits, whitespace and the letter x (after
lower-casing) contains no deny-listed phrase. -/
theorem injection_false_of_good {l : List Char}
    (hgood : ∀ ch ∈ (pyLower (String.mk l)).toList,
      (ch.isDigit || (isPySpace ch || decide (ch = 'x'))) = true) :
    contains_prompt_injection (String.mk l) = false := by
  unfold contains_prompt_injection strIn
  refine List.any_eq_false.2 ?_
  intro p hp
  fin_cases hp <;>
    first
    | exact no_phrase_in_good _ _ 'i' (by decide) (by decide) hgood
    | exact no_phrase_in_good _ _ 's' (by decide) (by decide) hgood
    | exact no_phrase_in_good _ _ 'c' (by decide) (by decide) hgood
    | exact no_phrase_in_good _ _ 'b' (by decide) (by decide) hgood
    | exact no_phrase_in_good _ _ 'a' (by decide) (by decide) hgood
    | exact no_phrase_in_good _ _ 'j' (by decide) (by decide) hgood
    | exact no_phrase_in_good _ _ 'r' (by decide) (by decide) hgood
    | exact no_phrase_in_good _ _ 'w' (by decide) (by decide) hgood
    | exact no_phrase_in_good _ _ 'm' (by decide) (by decide) hgood
    | exact no_phrase_in_good _ _ 'p' (by decide) (by decide) hgood
    | exact no_phrase_in_good _ _ 'd' (by decide) (by decide) hgood
    | exact no_phrase_in_good _ _ 'h' (by decide) (by decide) hgood

/-- Parsing a digit run followed by a suffix that opens with neither a
digit nor a point yields the run's value and the untouched suffix. -/
theorem parseNumLit_digits (d r : List Char) (hd : d ≠ [])
    (hdd : ∀ a ∈ d, a.isDigit = true)
    (hr : ∀ c t, r = c :: t → c.isDigit = false ∧ ¬ c = '.') :
    parseNumLit (d ++ r) = some ((digitsVal d : ℚ), r) := by
  obtain ⟨a, d', rfl⟩ : ∃ a d', d = a :: d' := by
    cases d with
    | nil => exact absurd rfl hd
    | cons a t => exact ⟨a, t, rfl⟩
  have ha : a.isDigit = true := hdd a (List.mem_cons_self _ _)
  have hsplit := splitWhile_append (p := Char.isDigit) (a :: d') r hdd
    (fun c t ht => (hr c t ht).1)
  rw [List.cons_append] at hsplit
  rw [List.cons_append]
  unfold parseNumLit
  dsimp only
  rw [if_neg (digit_ne ha (by decide))]
  unfold parseSignedDigits
  dsimp only
  rw [if_neg (digit_ne ha (by decide)), if_neg (digit_ne ha (by decide))]
  unfold parseUnsigned
  rw [hsplit.1, hsplit.2]
  simp only [List.isEmpty_cons, Bool.false_eq_true, if_false]
  cases r with
  | nil => rfl
  | cons c0 t0 =>
    dsimp only
    rw [if_neg (hr c0 t0 rfl).2]

/-- The anchored arithmetic regex match on a canonical
digits-spaces-star-spaces-digits list. -/
theorem matchArith_canonical {d1 sp1 sp2 d2 : List Char}
    (hd1 : d1 ≠ []) (hd1d : ∀ a ∈ d1, a.isDigit = true)
    (hd2 : d2 ≠ []) (hd2d : ∀ a ∈ d2, a.isDigit = true)
    (hs1 : ∀ a ∈ sp1, isPySpace a = true) (hs2 : ∀ a ∈ sp2, isPySpace a = true) :
    matchArith (d1 ++ (sp1 ++ '*' :: (sp2 ++ d2))) =
      some ((digitsVal d1 : ℚ), '*', (digitsVal d2 : ℚ)) := by
  have hskip0 : skipWs (d1 ++ (sp1 ++ '*' :: (sp2 ++ d2)))
      = d1 ++ (sp1 ++ '*' :: (sp2 ++ d2)) := by
    apply dropWhile_eq_self_of_head
    intro c t heq
    obtain ⟨a, d', rfl⟩ : ∃ a d', d1 = a :: d' := by
      cases d1 with
      | nil => exact absurd rfl hd1
      | cons a t => exact ⟨a, t, rfl⟩
    rw [List.cons_append] at heq
    injection heq with h1 _
    rw [← h1]
    exact digit_not_pySpace (hd1d a (List.mem_cons_self _ _))
  have hr1 : ∀ c t, (sp1 ++ '*' :: (sp2 ++ d2)) = c :: t →
      c.isDigit = false ∧ ¬ c = '.' := by
    intro c t ht
    constructor
    · exact head_cases (fun a hma => pySpace_not_digit (hs1 a hma)) (by decide) c t ht
    · have hq := head_cases (q := fun ch => decide (ch = '.'))
        (fun a hma => decide_eq_false (pySpace_ne (hs1 a hma) (by decide)))
        (by decide) c t ht
      exact of_decide_eq_false hq
  have hnum1 := parseNumLit_digits d1 (sp1 ++ '*' :: (sp2 ++ d2)) hd1 hd1d hr1
  have hskip1 : skipWs (sp1 ++ '*' :: (sp2 ++ d2)) = '*' :: (sp2 ++ d2) :=
    (splitWhile_append sp1 ('*' :: (sp2 ++ d2)) hs1
      (fun c t ht => by injection ht with h1 _; rw [← h1]; decide)).2
  have hskip2 : skipWs (sp2 ++ d2) = d2 :=
    (splitWhile_append sp2 d2 hs2 (fun c t ht => by
      have : c ∈ d2 := by rw [ht]; exact List.mem_cons_self _ _
      exact digit_not_pySpace (hd2d c this))).2
  have hnum2 : parseNumLit d2 = some ((digitsVal d2 : ℚ), ([] : List Char)) := by
    have := parseNumLit_digits d2 [] hd2 hd2d (fun c t ht => by cases ht)
    rwa [List.append_nil] at this
  unfold matchArith
  rw [hskip0, hnum1]
  dsimp only
  rw [hskip1]
  dsimp only
  rw [if_pos (by decide : arithOpClass '*' = true)]
  rw [show skipWs (sp2 ++ d2) = d2 from hskip2, hnum2]
  dsimp only
  rw [show skipWs ([] : List Char) = [] from rfl]
  simp

/-- Python strip is the identity on the canonical multiplication question:
it begins and ends with a digit. -/
theorem pyStrip_canonical {d1 sp1 sp2 d2 : List Char} {c : Char}
    (hd1 : d1 ≠ []) (hd1d : ∀ a ∈ d1, a.isDigit = true)
    (hd2 : d2 ≠ []) (hd2d : ∀ a ∈ d2, a.isDigit = true) :
    pyStripList (d1 ++ (sp1 ++ c :: (sp2 ++ d2)))
      = d1 ++ (sp1 ++ c :: (sp2 ++ d2)) := by
  obtain ⟨a, d1', rfl⟩ : ∃ a d1', d1 = a :: d1' := by
    cases d1 with
    | nil => exact absurd rfl hd1
    | cons a t => exact ⟨a, t, rfl⟩
  obtain ⟨d2', b, rfl⟩ : ∃ d2' b, d2 = d2' ++ [b] := by
    rcases List.eq_nil_or_concat d2 with h | ⟨L, x, h⟩
    · exact absurd h hd2
    · exact ⟨L, x, by simpa [List.concat_eq_append] using h⟩
  apply pyStripList_eq_self
  · intro c' t heq
    rw [List.cons_append] at heq
    injection heq with h1 _
    rw [← h1]
    exact digit_not_pySpace (hd1d a (List.mem_cons_self _ _))
  · intro c' t heq
    rw [show (a :: d1') ++ (sp1 ++ c :: (sp2 ++ (d2' ++ [b])))
        = ((a :: d1') ++ (sp1 ++ c :: (sp2 ++ d2'))) ++ [b] from by
      simp [List.append_assoc]] at heq
    rw [List.reverse_append, List.reverse_singleton, List.singleton_append] at heq
    injection heq with h1 _
    rw [← h1]
    exact digit_not_pySpace (hd2d b (by simp))

/-- One character-replacement pass over the canonical question only touches
the middle glyph. -/
theorem replaceChar_canonical {d1 sp1 sp2 d2 : List Char}
    (hd1d : ∀ a ∈ d1, a.isDigit = true) (hd2d : ∀ a ∈ d2, a.isDigit = true)
    (hs1 : ∀ a ∈ sp1, isPySpace a = true) (hs2 : ∀ a ∈ sp2, isPySpace a = true)
    (r : Char) (hr : r = 'x' ∨ r = 'X' ∨ r = '×') (mid : Char) :
    pyReplaceChar r '*' (d1 ++ (sp1 ++ mid :: (sp2 ++ d2))) =
      d1 ++ (sp1 ++ (if mid = r then '*' else mid) :: (sp2 ++ d2)) := by
  have hrd : r.isDigit = false := by rcases hr with rfl | rfl | rfl <;> decide
  have hrs : isPySpace r = false := by rcases hr with rfl | rfl | rfl <;> decide
  unfold pyReplaceChar
  rw [List.map_append, List.map_append, List.map_cons, List.map_append]
  rw [map_id_of_fixed d1 (fun a hma => if_neg (digit_ne (hd1d a hma) hrd)),
    map_id_of_fixed sp1 (fun a hma => if_neg (pySpace_ne (hs1 a hma) hrs)),
    map_id_of_fixed sp2 (fun a hma => if_neg (pySpace_ne (hs2 a hma) hrs)),
    map_id_of_fixed d2 (fun a hma => if_neg (digit_ne (hd2d a hma) hrd))]

/-- The three multiplication-glyph replacement passes rewrite the canonical
question's middle letter to a star and touch nothing else. -/
theorem replaceAll_canonical {d1 sp1 sp2 d2 : List Char} {c : Char}
    (hd1d : ∀ a ∈ d1, a.isDigit = true) (hd2d : ∀ a ∈ d2, a.isDigit = true)
    (hs1 : ∀ a ∈ sp1, isPySpace a = true) (hs2 : ∀ a ∈ sp2, isPySpace a = true)
    (hc : c = 'x' ∨ c = 'X' ∨ c = '×') :
    pyReplaceChar 'x' '*' (pyReplaceChar 'X' '*' (pyReplaceChar '×' '*'
      (d1 ++ (sp1 ++ c :: (sp2 ++ d2))))) = d1 ++ (sp1 ++ '*' :: (sp2 ++ d2)) := by
  have step := replaceChar_canonical hd1d hd2d hs1 hs2
  rcases hc with rfl | rfl | rfl
  · rw [step '×' (Or.inr (Or.inr rfl)) 'x', if_neg (by decide),
      step 'X' (Or.inr (Or.inl rfl)) 'x', if_neg (by decide),
      step 'x' (Or.inl rfl) 'x', if_pos rfl]
  · rw [step '×' (Or.inr (Or.inr rfl)) 'X', if_neg (by decide),
      step 'X' (Or.inr (Or.inl rfl)) 'X', if_pos rfl,
      step 'x' (Or.inl rfl) '*', if_neg (by decide)]
  · rw [step '×' (Or.inr (Or.inr rfl)) '×', if_pos rfl,
      step 'X' (Or.inr (Or.inl rfl)) '*', if_neg (by decide),
      step 'x' (Or.inl rfl) '*', if_neg (by decide)]

/-- Lower-casing the canonical question turns the middle letter into x and
fixes everything else. -/
theorem pyLower_canonical {d1 sp1 sp2 d2 : List Char} {c : Char}
    (hd1d : ∀ a ∈ d1, a.isDigit = true) (hd2d : ∀ a ∈ d2, a.isDigit = true)
    (hs1 : ∀ a ∈ sp1, isPySpace a = true) (hs2 : ∀ a ∈ sp2, isPySpace a = true)
    (hc : c = 'x' ∨ c = 'X') :
    (pyLower (String.mk (d1 ++ (sp1 ++ c :: (sp2 ++ d2))))).toList =
      d1 ++ (sp1 ++ 'x' :: (sp2 ++ d2)) := by
  unfold pyLower
  rw [toList_mk, toList_mk]
  rw [List.map_append, List.map_append, List.map_cons, List.map_append]
  rw [map_id_of_fixed d1 (fun a hma => asciiLower_digit (hd1d a hma)),
    map_id_of_fixed sp1 (fun a hma => asciiLower_pySpace (hs1 a hma)),
    map_id_of_fixed sp2 (fun a hma => asciiLower_pySpace (hs2 a hma)),
    map_id_of_fixed d2 (fun a hma => asciiLower_digit (hd2d a hma)),
    show asciiLower c = 'x' from by rcases hc with rfl | rfl <;> decide]

/-- A digit is not in the operator class of the math pattern. -/
theorem digit_not_mathOp {c : Char} (h : c.isDigit = true) : mathOpClass c = false := by
  cases hb : mathOpClass c
  · rfl
  · unfold mathOpClass at hb
    simp only [Bool.or_eq_true, decide_eq_true_eq] at hb
    rcases hb with ((((hb | hb) | hb) | hb) | hb) | hb <;> subst hb <;>
      exact absurd h (by decide)

/-- The canonical multiplication question passes the math-domain
classifier through the digits-whitespace-x structural alternative. -/
theorem is_math_canonical {d1 sp1 sp2 d2 : List Char} {c : Char}
    (hd1 : d1 ≠ []) (hd1d : ∀ a ∈ d1, a.isDigit = true)
    (_hd2 : d2 ≠ []) (hd2d : ∀ a ∈ d2, a.isDigit = true)
    (hs1 : ∀ a ∈ sp1, isPySpace a = true) (hs2 : ∀ a ∈ sp2, isPySpace a = true)
    (hc : c = 'x' ∨ c = 'X') :
    is_math_question (String.mk (d1 ++ (sp1 ++ c :: (sp2 ++ d2)))) = true := by
  unfold is_math_question
  rw [Bool.or_eq_true]
  right
  rw [pyLower_canonical hd1d hd2d hs1 hs2 hc]
  obtain ⟨a, d1', rfl⟩ : ∃ a d1', d1 = a :: d1' := by
    cases d1 with
    | nil => exact absurd rfl hd1
    | cons a t => exact ⟨a, t, rfl⟩
  have ha : a.isDigit = true := hd1d a (List.mem_cons_self _ _)
  have hd1d' : ∀ b ∈ d1', b.isDigit = true :=
    fun b hb => hd1d b (List.mem_cons_of_mem _ hb)
  rw [List.cons_append]
  unfold reSearch
  rw [Bool.or_eq_true]
  left
  unfold mathStructAt
  dsimp only
  rw [if_neg (by rw [digit_not_mathOp ha]; exact Bool.false_ne_true),
    if_neg (digit_ne ha (by decide)), if_pos ha]
  have hdrop : (d1' ++ (sp1 ++ 'x' :: (sp2 ++ d2))).dropWhile Char.isDigit
      = sp1 ++ 'x' :: (sp2 ++ d2) :=
    (splitWhile_append d1' (sp1 ++ 'x' :: (sp2 ++ d2)) hd1d'
      (head_cases (fun b hb => pySpace_not_digit (hs1 b hb)) (by decide))).2
  have hskip : skipWs (sp1 ++ 'x' :: (sp2 ++ d2)) = 'x' :: (sp2 ++ d2) :=
    (splitWhile_append sp1 ('x' :: (sp2 ++ d2)) hs1
      (fun c' t ht => by injection ht with h1 _; rw [← h1]; decide)).2
  rw [hdrop, hskip]
  simp

/-! ## C10 -/

/-- C10: the arithmetic solver rewrites the letters x and X (and the
unicode multiplication glyph) into the multiplication operator, so every
question of the form digits, optional whitespace, multiplication letter,
optional whitespace, digits - including digit-adjacent forms like 5x2 -
computes the product; for the ASCII letters, /api/ask answers it from the
computed tier with the trace stopping before the non-linear guard and the
linear solver. -/
theorem ascii_x_multiplication (d1 d2 sp1 sp2 : List Char) (c : Char)
    (hd1 : d1 ≠ []) (hd1d : ∀ a ∈ d1, a.isDigit = true)
    (hd2 : d2 ≠ []) (hd2d : ∀ a ∈ d2, a.isDigit = true)
    (hs1 : ∀ a ∈ sp1, isPySpace a = true) (hs2 : ∀ a ∈ sp2, isPySpace a = true)
    (hc : c = 'x' ∨ c = 'X' ∨ c = '×') :
    try_compute_arithmetic (String.mk (d1 ++ (sp1 ++ c :: (sp2 ++ d2)))) =
      some (toString ((digitsVal d1 * digitsVal d2 : ℕ) : ℤ)) ∧
    (∀ env : AskEnv, c = 'x' ∨ c = 'X' →
      ask env (String.mk (d1 ++ (sp1 ++ c :: (sp2 ++ d2)))) =
        (AskResult.answer "computed"
          (toString ((digitsVal d1 * digitsVal d2 : ℕ) : ℤ)),
         [Evt.classify, Evt.arith])) := by
  have harith : try_compute_arithmetic (String.mk (d1 ++ (sp1 ++ c :: (sp2 ++ d2)))) =
      some (toString ((digitsVal d1 * digitsVal d2 : ℕ) : ℤ)) := by
    unfold try_compute_arithmetic
    rw [toList_mk, pyStrip_canonical hd1 hd1d hd2 hd2d]
    dsimp only
    rw [replaceAll_canonical hd1d hd2d hs1 hs2 hc,
      matchArith_canonical hd1 hd1d hd2 hd2d hs1 hs2]
    dsimp only
    rw [if_neg (by decide), if_neg (by decide), if_pos (by decide)]
    unfold formatArithRes
    rw [show ((digitsVal d1 : ℚ) * (digitsVal d2 : ℚ))
        = ((digitsVal d1 * digitsVal d2 : ℕ) : ℚ) from by push_cast; ring]
    rw [if_pos (Rat.den_natCast _), Rat.num_natCast]
  refine ⟨harith, ?_⟩
  intro env hcx
  have hstr : pyStrip (String.mk (d1 ++ (sp1 ++ c :: (sp2 ++ d2)))) =
      String.mk (d1 ++ (sp1 ++ c :: (sp2 ++ d2))) := by
    unfold pyStrip
    rw [toList_mk, pyStrip_canonical hd1 hd1d hd2 hd2d]
  have hne : ¬ (String.mk (d1 ++ (sp1 ++ c :: (sp2 ++ d2))) = "") := by
    intro he
    have hdata : d1 ++ (sp1 ++ c :: (sp2 ++ d2)) = [] := congrArg String.data he
    rcases List.append_eq_nil.1 hdata with ⟨h1, _⟩
    exact hd1 h1
  have hgood : ∀ ch ∈ (pyLower (String.mk (d1 ++ (sp1 ++ c :: (sp2 ++ d2))))).toList,
      (ch.isDigit || (isPySpace ch || decide (ch = 'x'))) = true := by
    rw [pyLower_canonical hd1d hd2d hs1 hs2 hcx]
    intro ch hch
    simp only [List.mem_append, List.mem_cons] at hch
    rcases hch with h | h | h | h | h
    · simp [hd1d ch h]
    · simp [hs1 ch h]
    · subst h; decide
    · simp [hs2 ch h]
    · simp [hd2d ch h]
  have hinj := injection_false_of_good hgood
  have hmath := is_math_canonical hd1 hd1d hd2 hd2d hs1 hs2 hcx
  unfold ask
  rw [hstr, if_neg hne, if_neg (by rw [hinj]; exact Bool.false_ne_true),
    if_neg (by rw [hmath]; simp), harith]

/-- Witness for C10 at the digit-adjacent input 5x2: the product is
computed and answered from the computed tier. -/
theorem ascii_x_multiplication_witness :
    try_compute_arithmetic (String.mk ['5', 'x', '2']) =
      some (toString ((digitsVal ['5'] * digitsVal ['2'] : ℕ) : ℤ)) ∧
    toString ((digitsVal ['5'] * digitsVal ['2'] : ℕ) : ℤ) = "10" ∧
    ask trivialAskEnv (String.mk ['5', 'x', '2']) =
      (AskResult.answer "computed"
        (toString ((digitsVal ['5'] * digitsVal ['2'] : ℕ) : ℤ)),
       [Evt.classify, Evt.arith]) :=
  ⟨(ascii_x_multiplication ['5'] ['2'] [] [] 'x' (by decide) (by decide)
      (by decide) (by decide) (by decide) (by decide) (Or.inl rfl)).1,
   by decide,
   (ascii_x_multiplication ['5'] ['2'] [] [] 'x' (by decide) (by decide)
      (by decide) (by decide) (by decide) (by decide) (Or.inl rfl)).2
     trivialAskEnv (Or.inl rfl)⟩

/-! ## C5 -/

/-- C5: the adjusted score equals the raw similarity plus the fixed 0.25
boost exactly when the provenance is human feedback (and equals the raw
similarity exactly otherwise); the ranked list is sorted by adjusted score
descending; and concretely a human-feedback entry of raw similarity 0.65
(adjusted 0.90) outranks a seed entry of raw similarity 0.80 on the same
query. -/
theorem feedback_boost_ranking :
    (∀ h : KBHit,
      (adjScore h = h.score.getD 0 + 0.25 ↔ h.payload.source = "human_feedback") ∧
      (adjScore h = h.score.getD 0 ↔ h.payload.source ≠ "human_feedback")) ∧
    (∀ hits : List KBHit,
      List.Pairwise (fun a b : ℚ × KBHit => b.1 ≤ a.1) (processHits hits)) ∧
    processHits [seedHit, hfHit] = [(0.9, hfHit), (0.8, seedHit)] := by
  refine ⟨?_, ?_, ?_⟩
  · intro h
    unfold adjScore
    by_cases hsrc : h.payload.source = "human_feedback"
    · rw [if_pos hsrc]
      constructor
      · exact ⟨fun _ => hsrc, fun _ => rfl⟩
      · constructor
        · intro habs
          have : (0.25 : ℚ) = 0 := by
            have := add_left_cancel (a := h.score.getD 0)
              (b := (0.25 : ℚ)) (c := 0) (by simpa using habs)
            simpa using this
          norm_num at this
        · intro hne
          exact absurd hsrc hne
    · rw [if_neg hsrc]
      constructor
      · constructor
        · intro habs
          have : (0 : ℚ) = 0.25 := by
            have := add_left_cancel (a := h.score.getD 0)
              (b := (0 : ℚ)) (c := (0.25 : ℚ)) (by simpa using habs)
            simpa using this
          norm_num at this
        · intro hsrc'
          exact absurd hsrc' hsrc
      · exact ⟨fun _ => hsrc, fun _ => by rw [add_zero]⟩
  · intro hits
    unfold processHits
    exact pairwise_sortDesc _
  · with_unfolding_all decide

/-! ## C6 -/

/-- The deprecation sweep never touches the feedback table. -/
theorem sweepGo_fb (env : TrainEnv) (nid : String) :
    ∀ (l : List KBHit) (st : Store), (sweepGo env nid st l).fb = st.fb
  | [], st => rfl
  | s :: rest, st => by
    unfold sweepGo
    by_cases h1 : s.id = nid
    · rw [if_pos h1]
      exact sweepGo_fb env nid rest st
    · rw [if_neg h1]
      by_cases h2 : s.score.getD 0 > 0.7
      · rw [if_pos h2]
        rcases hgc : env.qdrant.getClient with e | u
        · rfl
        · dsimp only
          by_cases h3 : env.updateFails s.id = true
          · rw [if_pos h3]
          · rw [if_neg h3]
            exact sweepGo_fb env nid rest _
      · rw [if_neg h2]
        exact sweepGo_fb env nid rest st

/-- The sweep never touches the feedback table. -/
theorem sweep_fb (env : TrainEnv) (st : Store) (vec : List ℚ) (nid : String) :
    (sweep env st vec nid).fb = st.fb := by
  unfold sweep
  rcases hs : search_vectors env.qdrant COLLECTION vec 6 with e | sim
  · rfl
  · exact sweepGo_fb env nid sim st

/-- C6: the audit append of the train operation happens before any
knowledge-base mutation: if the append fails the whole operation aborts
with the state (knowledge base and feedback table) unchanged, and whenever
the knowledge base was mutated, the audit record was appended. -/
theorem train_audit_before_kb_mutation (env : TrainEnv) (st : Store)
    (q ca : String) (cm : Option String) :
    (env.saveOk = false →
      (feedback_train env st q ca cm).2 = st ∧
      ∃ m, (feedback_train env st q ca cm).1 = FBResp.err m) ∧
    ((feedback_train env st q ca cm).2.kb ≠ st.kb →
      (feedback_train env st q ca cm).2.fb =
        st.fb ++ [⟨st.fb.length + 1, q, "", false, some ca, cm⟩]) := by
  unfold feedback_train
  by_cases hval : (q = "" || ca = "") = true
  · rw [if_pos hval]
    exact ⟨fun _ => ⟨rfl, "Missing fields", rfl⟩, fun hkb => absurd rfl hkb⟩
  · rw [if_neg hval]
    by_cases hsave : env.saveOk = true
    · unfold save_feedback
      rw [if_pos hsave]
      dsimp only
      constructor
      · intro hfail
        rw [hsave] at hfail
        exact absurd hfail (by simp)
      · intro hkb
        clear hkb
        rcases he : env.encode q with e | vec <;> dsimp only
        by_cases hup : (!env.upsertOk) = true
        · rw [if_pos hup]
        · rw [if_neg hup]
          dsimp only
          exact sweep_fb env _ vec env.newId
    · unfold save_feedback
      have hsave' : env.saveOk = false := by
        cases h : env.saveOk
        · rfl
        · exact absurd h hsave
      rw [hsave']
      dsimp only
      exact ⟨fun _ => ⟨rfl, "sqlite insert failed", rfl⟩, fun hkb => absurd rfl hkb⟩

/-- Witness for C6: a failing append leaves the store untouched, and a
successful train run mutates the knowledge base only together with the
appended audit record. -/
theorem train_audit_before_kb_mutation_witness :
    (feedback_train trainSaveFailEnv {} "q" "a" none).2 = ({} : Store) ∧
    (feedback_train trainOkEnv {} "q" "a" none).2.kb ≠ ({} : Store).kb ∧
    (feedback_train trainOkEnv {} "q" "a" none).2.fb =
      ({} : Store).fb ++
        [⟨({} : Store).fb.length + 1, "q", "", false, some "a", none⟩] :=
  ⟨((train_audit_before_kb_mutation trainSaveFailEnv {} "q" "a" none).1 rfl).1,
   by with_unfolding_all decide,
   (train_audit_before_kb_mutation trainOkEnv {} "q" "a" none).2
     (by with_unfolding_all decide)⟩

end MathAgent
